import Mathlib

/-!
Shallow embedding of the folder-download engine of `download-file-from-bucket`
(package `downloader`, file with `DownloadFolder`, `downloadWorker`,
`downloadObject`, plus the `providers.Object` / `providers.DownloadProgress`
data model).

Modelling conventions:
* Go strings are `List Char` (`GoStr`); the byte-level operations the code
  uses (`len`, slicing, indexing, trailing-`/` test) agree with the
  character-level ones on the ASCII inputs of interest.
* Go `int64` / `int` are `Int` / `Nat` with exact arithmetic; no claim in
  scope involves wraparound.
* The filesystem is a pair of maps: a set of directories and a partial map
  from paths to byte contents.  Paths are cleaned segment lists, which is
  how `filepath.Join`'s lexical cleaning (`.`/`..` processing) behaves on
  relative paths.
* The external environment (`Env`) supplies the provider's listing result,
  the per-key fetch result, and the success/failure of `os.MkdirAll` /
  `os.Create` at each path, plus the measured wall-clock duration; these
  are exactly the external effects `DownloadFolder` consumes.  A successful
  `io.Copy` stores the fetched bytes; `os.Create` truncates, so a write is
  a full overwrite.
* Concurrency: the embedding is the sequential (concurrency = 1) semantics,
  in which progress events arrive in listing order.  Every property proved
  below is insensitive to event arrival order (counts, sums, final
  filesystem contents keyed by path), matching the spec's note that only
  the arrival order is scheduler-dependent.
* A worker panic (out-of-bounds index on an empty key) is modelled as the
  `none` result of `downloadObject` and the `panicked` run outcome.
-/

abbrev GoStr := List Char

/-- `providers.Object`: the fields the engine reads (`Key`, `Size`).
`LastModified`, `ETag`, `ContentType`, `Metadata` are never consumed by
`DownloadFolder`/`downloadWorker`/`downloadObject` and are omitted. -/
structure Object where
  Key : GoStr
  Size : Int
deriving Repr, DecidableEq

/-- `providers.DownloadProgress`. -/
structure DownloadProgress where
  Key : GoStr
  BytesDownloaded : Int
  TotalBytes : Int
  Error : Option String
  Completed : Bool
deriving Repr, DecidableEq

/-- `downloader.DownloadResult`; `Duration` is the elapsed wall-clock value
supplied by the environment. -/
structure DownloadResult where
  TotalFiles : Nat
  SuccessfulFiles : Nat
  FailedFiles : Nat
  TotalBytes : Int
  Duration : Int
  Errors : List String
deriving Repr, DecidableEq

/-- The local filesystem: which (cleaned, segment-list) paths exist as
directories, and the byte contents of each file. -/
@[ext] structure FS where
  isDir : List GoStr → Bool
  file : List GoStr → Option (List Nat)

/-- The external effects a run consumes: the provider's listing result,
per-path success of `os.MkdirAll`, the provider's per-key fetch result
(bytes or error), per-path success of `os.Create`, and the measured
duration. -/
structure Env where
  listResult : Except String (List Object)
  mkdirOk : List GoStr → Bool
  fetch : GoStr → Except String (List Nat)
  createOk : List GoStr → Bool
  elapsed : Int

/-- Split a path string on `/` into raw segments. -/
def splitSlash : GoStr → List GoStr
  | [] => [[]]
  | c :: rest =>
    let r := splitSlash rest
    if c = '/' then [] :: r
    else
      match r with
      | [] => [[c]]
      | s :: ss => (c :: s) :: ss

/-- One step of `filepath.Clean`'s lexical processing on relative paths:
empty segments and `.` are dropped, `..` pops the last real segment. -/
def cleanStep (stack : List GoStr) (seg : GoStr) : List GoStr :=
  if seg = [] ∨ seg = ['.'] then stack
  else if seg = ['.', '.'] then
    match stack.getLast? with
    | some l => if l = ['.', '.'] then stack ++ [seg] else stack.dropLast
    | none => [seg]
  else stack ++ [seg]

def cleanSegs (segs : List GoStr) : List GoStr := segs.foldl cleanStep []

/-- `filepath.Join(dir, rel)` as a cleaned segment list. -/
def joinPath (dir rel : GoStr) : List GoStr := cleanSegs (splitSlash dir ++ splitSlash rel)

def errMkdirAll : String := "mkdir failed"
def errMkdirFor : String := "failed to create directory"
def errCreate : String := "failed to create local file"
def errMkdirRoot : String := "failed to create local directory"
def errListMsg : String := "failed to list objects: "

/-- `os.MkdirAll(p)`: on success, `p` and every ancestor of `p` exist as
directories; on failure the filesystem is unchanged. -/
def addDirs (p : List GoStr) (fs : FS) : FS :=
  { fs with isDir := fun q => fs.isDir q || q.isPrefixOf p }

def mkdirAll (env : Env) (p : List GoStr) (fs : FS) : Option String × FS :=
  if env.mkdirOk p then (none, addDirs p fs) else (some errMkdirAll, fs)

/-- `os.Create` + `io.Copy`: full overwrite of the file at `p`. -/
def setFile (p : List GoStr) (v : List Nat) (fs : FS) : FS :=
  { fs with file := fun q => if q = p then some v else fs.file q }

/-- The relative-path computation inlined at the top of `downloadObject`:
`relativePath := obj.Key; if prefix != "" && len(obj.Key) > len(prefix)
{ relativePath = obj.Key[len(prefix):]; if relativePath[0] == '/'
{ relativePath = relativePath[1:] } }`. -/
def relativePath (key pre : GoStr) : GoStr :=
  if pre ≠ [] ∧ pre.length < key.length then
    match key.drop pre.length with
    | '/' :: rest => rest
    | r => r
  else key

/-- `downloadObject`: `none` models the panic of `obj.Key[len(obj.Key)-1]`
on an empty key; otherwise `some (err?, fs)` is the returned error and the
filesystem after the call.  A directory-marker key (`'/'` last) does
`os.MkdirAll(localPath)` and returns; otherwise the parent directory is
created (wrapped error on failure), the provider stream is opened (its
error returned unwrapped), and the local file is created and written. -/
def downloadObject (env : Env) (obj : Object) (pre dir : GoStr) (fs : FS) :
    Option (Option String × FS) :=
  let localPath := joinPath dir (relativePath obj.Key pre)
  match obj.Key.getLast? with
  | none => none
  | some c =>
    if c = '/' then
      some (mkdirAll env localPath fs)
    else
      if env.mkdirOk localPath.dropLast then
        let fs1 := addDirs localPath.dropLast fs
        match env.fetch obj.Key with
        | Except.error e => some (some e, fs1)
        | Except.ok content =>
          if env.createOk localPath then
            some (none, setFile localPath content fs1)
          else
            some (some errCreate, fs1)
      else
        some (some errMkdirFor, fs)

/-- The progress event `downloadWorker` builds for one object:
`progress := {Key: obj.Key, TotalBytes: obj.Size}`; on error
`progress.Error = err`, on success `BytesDownloaded = obj.Size`,
`Completed = true`. -/
def mkProgress (obj : Object) (res : Option String) : DownloadProgress :=
  match res with
  | some e =>
    { Key := obj.Key, BytesDownloaded := 0, TotalBytes := obj.Size
      Error := some e, Completed := false }
  | none =>
    { Key := obj.Key, BytesDownloaded := obj.Size, TotalBytes := obj.Size
      Error := none, Completed := true }

/-- `downloadWorker` at concurrency 1: drains the job list in order,
emitting one event per object; `none` in the first component means a
worker panicked (the filesystem is the state reached at that point and no
events are delivered). -/
def downloadWorker (env : Env) (pre dir : GoStr) :
    List Object → FS → Option (List DownloadProgress) × FS
  | [], fs => (some [], fs)
  | obj :: rest, fs =>
    match downloadObject env obj pre dir fs with
    | none => (none, fs)
    | some (res, fs1) =>
      match downloadWorker env pre dir rest fs1 with
      | (none, fs2) => (none, fs2)
      | (some evs, fs2) => (some (mkProgress obj res :: evs), fs2)

def emptyResult : DownloadResult :=
  { TotalFiles := 0, SuccessfulFiles := 0, FailedFiles := 0, TotalBytes := 0
    Duration := 0, Errors := [] }

/-- One iteration of the result-collection loop in `DownloadFolder`. -/
def aggStep (r : DownloadResult) (ev : DownloadProgress) : DownloadResult :=
  let r1 := { r with TotalFiles := r.TotalFiles + 1, TotalBytes := r.TotalBytes + ev.TotalBytes }
  match ev.Error with
  | some e => { r1 with FailedFiles := r1.FailedFiles + 1, Errors := r1.Errors ++ [e] }
  | none => { r1 with SuccessfulFiles := r1.SuccessfulFiles + 1 }

/-- The result-collection loop plus the final `result.Duration` assignment. -/
def aggregate (evs : List DownloadProgress) (elapsed : Int) : DownloadResult :=
  { evs.foldl aggStep emptyResult with Duration := elapsed }

/-- The outcome of a run of `DownloadFolder`: the Go pair
`(*DownloadResult, error)`, or a worker panic. -/
inductive RunOutcome where
  | ret (result : Option DownloadResult) (error : Option String)
  | panicked
deriving Repr, DecidableEq

/-- `DownloadFolder`: list, short-circuit on empty listing, create the
destination root, run the workers, aggregate the events.  After a
completed run it returns the populated result and a nil error. -/
def DownloadFolder (env : Env) (pre dir : GoStr) (fs : FS) : RunOutcome × FS :=
  match env.listResult with
  | Except.error e => (RunOutcome.ret none (some (errListMsg ++ e)), fs)
  | Except.ok objs =>
    match objs with
    | [] => (RunOutcome.ret (some { emptyResult with Duration := env.elapsed }) none, fs)
    | o :: rest =>
      let dirSegs := cleanSegs (splitSlash dir)
      if env.mkdirOk dirSegs then
        match downloadWorker env pre dir (o :: rest) (addDirs dirSegs fs) with
        | (none, fs2) => (RunOutcome.panicked, fs2)
        | (some evs, fs2) =>
          (RunOutcome.ret (some (aggregate evs env.elapsed)) none, fs2)
      else (RunOutcome.ret none (some errMkdirRoot), fs)

/-- The event stream of a run (the contents of the `results` channel), in
the sequential arrival order; `none` when no event stream is produced
(fatal error or panic). -/
def runEvents (env : Env) (pre dir : GoStr) (fs : FS) : Option (List DownloadProgress) :=
  match env.listResult with
  | Except.error _ => none
  | Except.ok objs =>
    match objs with
    | [] => some []
    | o :: rest =>
      let dirSegs := cleanSegs (splitSlash dir)
      if env.mkdirOk dirSegs then
        (downloadWorker env pre dir (o :: rest) (addDirs dirSegs fs)).1
      else none

/-- `if the remainder starts with '/', strip exactly one leading '/'`
(spec §4.2 wording). -/
def stripOneSlash : GoStr → GoStr
  | '/' :: rest => rest
  | r => r

/-- The path mapper as C5 words it: whenever `len(key) > len(prefix)` the
first `len(prefix)` characters are stripped (no non-empty-prefix guard),
then one leading `/` if present. -/
def claimRelativePath (key pre : GoStr) : GoStr :=
  if pre.length < key.length then stripOneSlash (key.drop pre.length) else key

/-- The index `len(obj.Key) - 1` used by `downloadObject`'s trailing-slash
test, as the Go `int` value. -/
def lastIndex (key : GoStr) : Int := (key.length : Int) - 1

/-- In-bounds predicate for indexing a string of length `len(key)`. -/
def idxInBounds (key : GoStr) : Prop :=
  0 ≤ lastIndex key ∧ lastIndex key < (key.length : Int)

/-- The file write `downloadObject` performs for one object, if any:
the target path and the bytes stored there.  `none` for directory markers,
panics and every per-object failure. -/
def objFileWrite (env : Env) (obj : Object) (pre dir : GoStr) :
    Option (List GoStr × List Nat) :=
  let localPath := joinPath dir (relativePath obj.Key pre)
  match obj.Key.getLast? with
  | none => none
  | some c =>
    if c = '/' then none
    else
      if env.mkdirOk localPath.dropLast then
        match env.fetch obj.Key with
        | Except.error _ => none
        | Except.ok content =>
          if env.createOk localPath then some (localPath, content) else none
      else none

/-- Whether processing one object makes `q` a directory: a successful
`MkdirAll` on the marker path, or on the parent directory of a file. -/
def objDirAdd (env : Env) (obj : Object) (pre dir : GoStr) (q : List GoStr) : Bool :=
  let localPath := joinPath dir (relativePath obj.Key pre)
  match obj.Key.getLast? with
  | none => false
  | some c =>
    if c = '/' then env.mkdirOk localPath && q.isPrefixOf localPath
    else env.mkdirOk localPath.dropLast && q.isPrefixOf localPath.dropLast

/-- The error outcome of `downloadObject` (for a non-empty key), spelled
out branch by branch; proved equal to `downloadObject`'s first component
below. -/
def objRes (env : Env) (obj : Object) (pre dir : GoStr) : Option String :=
  let localPath := joinPath dir (relativePath obj.Key pre)
  match obj.Key.getLast? with
  | none => none
  | some c =>
    if c = '/' then
      if env.mkdirOk localPath then none else some errMkdirAll
    else
      if env.mkdirOk localPath.dropLast then
        match env.fetch obj.Key with
        | Except.error e => some e
        | Except.ok _ => if env.createOk localPath then none else some errCreate
      else some errMkdirFor

/-- The filesystem effect of `downloadObject`, spelled out branch by
branch; proved equal to `downloadObject`'s second component below. -/
def objApply (env : Env) (obj : Object) (pre dir : GoStr) (fs : FS) : FS :=
  let localPath := joinPath dir (relativePath obj.Key pre)
  match obj.Key.getLast? with
  | none => fs
  | some c =>
    if c = '/' then
      if env.mkdirOk localPath then addDirs localPath fs else fs
    else
      if env.mkdirOk localPath.dropLast then
        match env.fetch obj.Key with
        | Except.error _ => addDirs localPath.dropLast fs
        | Except.ok content =>
          if env.createOk localPath then
            setFile localPath content (addDirs localPath.dropLast fs)
          else addDirs localPath.dropLast fs
      else fs

/-- The last file content written at `p` by a worker pass over `objs`
(later objects override earlier ones; processing stops at the first
empty-key panic). -/
def fileAfter (env : Env) (pre dir : GoStr) : List Object → List GoStr → Option (List Nat)
  | [], _ => none
  | obj :: rest, p =>
    match obj.Key.getLast? with
    | none => none
    | some _ =>
      match fileAfter env pre dir rest p with
      | some v => some v
      | none =>
        match objFileWrite env obj pre dir with
        | some qv => if p = qv.1 then some qv.2 else none
        | none => none

/-- Whether a worker pass over `objs` makes `q` a directory (stopping at
the first empty-key panic). -/
def dirsAfter (env : Env) (pre dir : GoStr) : List Object → List GoStr → Bool
  | [], _ => false
  | obj :: rest, q =>
    match obj.Key.getLast? with
    | none => false
    | some _ => objDirAdd env obj pre dir q || dirsAfter env pre dir rest q

/-- The last file content a whole `DownloadFolder` run writes at `p`. -/
def runFileAfter (env : Env) (pre dir : GoStr) (p : List GoStr) : Option (List Nat) :=
  match env.listResult with
  | Except.error _ => none
  | Except.ok objs =>
    match objs with
    | [] => none
    | o :: rest =>
      if env.mkdirOk (cleanSegs (splitSlash dir)) then
        fileAfter env pre dir (o :: rest) p
      else none

/-- Whether a whole `DownloadFolder` run makes `q` a directory. -/
def runDirsAfter (env : Env) (pre dir : GoStr) (q : List GoStr) : Bool :=
  match env.listResult with
  | Except.error _ => false
  | Except.ok objs =>
    match objs with
    | [] => false
    | o :: rest =>
      if env.mkdirOk (cleanSegs (splitSlash dir)) then
        q.isPrefixOf (cleanSegs (splitSlash dir)) || dirsAfter env pre dir (o :: rest) q
      else false

/-! Concrete fixtures used by counterexamples and witnesses. -/

/-- The empty filesystem. -/
def fs0 : FS := { isDir := fun _ => false, file := fun _ => none }

def preD : GoStr := "d/".data
def outD : GoStr := "out".data
def keyA : GoStr := "d/a.txt".data
def keyB : GoStr := "d/b.txt".data
def errFetchB : String := "fetch failed"

/-- Spec §8 scenario B: two listed objects, the fetch of the second one
fails, everything else succeeds. -/
def envB : Env :=
  { listResult := Except.ok [{ Key := keyA, Size := 10 }, { Key := keyB, Size := 20 }]
    mkdirOk := fun _ => true
    fetch := fun k => if k = keyB then Except.error errFetchB else Except.ok [1, 2, 3]
    createOk := fun _ => true
    elapsed := 5 }

/-- The result scenario B actually produces. -/
def resB : DownloadResult :=
  { TotalFiles := 2, SuccessfulFiles := 1, FailedFiles := 1, TotalBytes := 30
    Duration := 5, Errors := [errFetchB] }

/-- The event stream scenario B actually produces. -/
def evsB : List DownloadProgress :=
  [{ Key := keyA, BytesDownloaded := 10, TotalBytes := 10, Error := none, Completed := true },
   { Key := keyB, BytesDownloaded := 0, TotalBytes := 20, Error := some errFetchB, Completed := false }]

def keyDirMarker : GoStr := "d/sub/".data

/-- A single directory-marker object with a non-zero declared size. -/
def envDir : Env :=
  { listResult := Except.ok [{ Key := keyDirMarker, Size := 7 }]
    mkdirOk := fun _ => true
    fetch := fun _ => Except.ok []
    createOk := fun _ => true
    elapsed := 1 }

/-- The result the directory-marker listing actually produces. -/
def resDir : DownloadResult :=
  { TotalFiles := 1, SuccessfulFiles := 1, FailedFiles := 0, TotalBytes := 7
    Duration := 1, Errors := [] }

def escKey : GoStr := "p/../../evil/x.txt".data
def preP : GoStr := "p/".data
def escObj : Object := { Key := escKey, Size := 2 }

/-- A listing containing only the traversal key, everything succeeding. -/
def envEsc : Env :=
  { listResult := Except.ok [escObj]
    mkdirOk := fun _ => true
    fetch := fun _ => Except.ok [104, 105]
    createOk := fun _ => true
    elapsed := 0 }

/-- Where the traversal key lands on disk. -/
def escPath : List GoStr := joinPath outD (relativePath escKey preP)

-- sanity checks on concrete values
example : relativePath ("photos/2020/a.jpg").data (("photos/").data) = ("2020/a.jpg").data := by decide
example : joinPath ("out").data (("2020/a.jpg").data) = [("out").data, ("2020").data, ("a.jpg").data] := by decide
example : joinPath ("out").data (("../../evil/x.txt").data) = [("..").data, ("evil").data, ("x.txt").data] := by decide
example : (DownloadFolder envB preD outD fs0).1 = RunOutcome.ret (some resB) none := by decide
example : escPath = [("..").data, ("evil").data, ("x.txt").data] := by decide

/-- An empty-listing environment. -/
def envEmpty : Env :=
  { listResult := Except.ok []
    mkdirOk := fun _ => true
    fetch := fun _ => Except.ok []
    createOk := fun _ => true
    elapsed := 3 }

/-- A listing-failure environment. -/
def envListFail : Env :=
  { listResult := Except.error ("boom")
    mkdirOk := fun _ => true
    fetch := fun _ => Except.ok []
    createOk := fun _ => true
    elapsed := 3 }

/-- A non-empty listing whose destination-root creation fails. -/
def envRootFail : Env :=
  { listResult := Except.ok [{ Key := keyA, Size := 10 }]
    mkdirOk := fun _ => false
    fetch := fun _ => Except.ok []
    createOk := fun _ => true
    elapsed := 3 }

/-! ## Helper lemmas about the aggregation loop -/

theorem agg_foldl_TotalFiles (evs : List DownloadProgress) :
    ∀ r : DownloadResult, (evs.foldl aggStep r).TotalFiles = r.TotalFiles + evs.length := by
  induction evs with
  | nil => intro r; simp
  | cons ev evs ih =>
    intro r
    rw [List.foldl_cons, ih]
    cases hev : ev.Error <;> simp [aggStep, hev] <;> omega

theorem agg_foldl_TotalBytes (evs : List DownloadProgress) :
    ∀ r : DownloadResult,
      (evs.foldl aggStep r).TotalBytes =
        r.TotalBytes + (evs.map (fun v => v.TotalBytes)).sum := by
  induction evs with
  | nil => intro r; simp
  | cons ev evs ih =>
    intro r
    rw [List.foldl_cons, ih]
    cases hev : ev.Error <;> simp [aggStep, hev] <;> ring

theorem agg_foldl_FailedFiles (evs : List DownloadProgress) :
    ∀ r : DownloadResult,
      (evs.foldl aggStep r).FailedFiles =
        r.FailedFiles + (evs.filter (fun v => v.Error.isSome)).length := by
  induction evs with
  | nil => intro r; simp
  | cons ev evs ih =>
    intro r
    rw [List.foldl_cons, ih]
    cases hev : ev.Error <;> (simp [aggStep, hev, List.filter_cons]; try omega)

theorem agg_foldl_SuccessfulFiles (evs : List DownloadProgress) :
    ∀ r : DownloadResult,
      (evs.foldl aggStep r).SuccessfulFiles =
        r.SuccessfulFiles + (evs.filter (fun v => v.Error.isNone)).length := by
  induction evs with
  | nil => intro r; simp
  | cons ev evs ih =>
    intro r
    rw [List.foldl_cons, ih]
    cases hev : ev.Error <;> (simp [aggStep, hev, List.filter_cons]; try omega)

theorem agg_foldl_Errors_length (evs : List DownloadProgress) :
    ∀ r : DownloadResult,
      (evs.foldl aggStep r).Errors.length =
        r.Errors.length + (evs.filter (fun v => v.Error.isSome)).length := by
  induction evs with
  | nil => intro r; simp
  | cons ev evs ih =>
    intro r
    rw [List.foldl_cons, ih]
    cases hev : ev.Error <;> (simp [aggStep, hev, List.filter_cons]; try omega)

theorem filter_isNone_isSome_length (evs : List DownloadProgress) :
    (evs.filter (fun v => v.Error.isNone)).length +
      (evs.filter (fun v => v.Error.isSome)).length = evs.length := by
  induction evs with
  | nil => simp
  | cons ev evs ih =>
    cases hev : ev.Error <;> simp [List.filter_cons, hev] <;> omega

/-! ## Helper lemmas about the worker loop's event stream -/

theorem mkProgress_TotalBytes (obj : Object) (res : Option String) :
    (mkProgress obj res).TotalBytes = obj.Size := by
  cases res <;> rfl

theorem worker_events_sizes (env : Env) (pre dir : GoStr) :
    ∀ (objs : List Object) (fs : FS) (evs : List DownloadProgress),
      (downloadWorker env pre dir objs fs).1 = some evs →
      evs.map (fun v => v.TotalBytes) = objs.map (fun o => o.Size) := by
  intro objs
  induction objs with
  | nil =>
    intro fs evs h
    simp only [downloadWorker] at h
    cases h
    rfl
  | cons obj rest ih =>
    intro fs evs h
    simp only [downloadWorker] at h
    cases hd : downloadObject env obj pre dir fs with
    | none => rw [hd] at h; cases h
    | some rp =>
      rcases rp with ⟨res, fs1⟩
      rw [hd] at h
      dsimp only at h
      rcases hrec : downloadWorker env pre dir rest fs1 with ⟨o1, fs2⟩
      rw [hrec] at h
      cases o1 with
      | none => cases h
      | some evs' =>
        cases h
        simp only [List.map_cons, mkProgress_TotalBytes]
        rw [ih fs1 evs' (by rw [hrec])]

theorem worker_events_length (env : Env) (pre dir : GoStr)
    (objs : List Object) (fs : FS) (evs : List DownloadProgress)
    (h : (downloadWorker env pre dir objs fs).1 = some evs) :
    evs.length = objs.length := by
  have := congrArg List.length (worker_events_sizes env pre dir objs fs evs h)
  simpa using this

/-! ## Claim theorems (fatal paths, empty listing, aggregate invariants) -/

/-- C6: fatal errors are atomic short-circuits: when listing fails, and
when a non-empty listing is followed by a failing destination-root
creation, `DownloadFolder` returns a nil result with a non-nil error, the
filesystem is untouched, and no event stream (no job) is produced. -/
theorem downloadFolder_fatal_short_circuit (env : Env) (pre dir : GoStr) (fs : FS)
    (e : String) (objs : List Object) :
    (env.listResult = Except.error e →
      DownloadFolder env pre dir fs = (RunOutcome.ret none (some (errListMsg ++ e)), fs) ∧
      runEvents env pre dir fs = none) ∧
    (env.listResult = Except.ok objs → objs ≠ [] →
      env.mkdirOk (cleanSegs (splitSlash dir)) = false →
      DownloadFolder env pre dir fs = (RunOutcome.ret none (some errMkdirRoot), fs) ∧
      runEvents env pre dir fs = none) := by
  constructor
  · intro h
    constructor <;> simp [DownloadFolder, runEvents, h]
  · intro h hne hm
    cases objs with
    | nil => exact absurd rfl hne
    | cons o rest =>
      constructor <;> simp [DownloadFolder, runEvents, h, hm]

theorem downloadFolder_fatal_short_circuit_witness :
    (DownloadFolder envListFail preD outD fs0 =
      (RunOutcome.ret none (some (errListMsg ++ "boom")), fs0) ∧
      runEvents envListFail preD outD fs0 = none) ∧
    (DownloadFolder envRootFail preD outD fs0 =
      (RunOutcome.ret none (some errMkdirRoot), fs0) ∧
      runEvents envRootFail preD outD fs0 = none) :=
  ⟨(downloadFolder_fatal_short_circuit envListFail preD outD fs0 ("boom") []).1 rfl,
   (downloadFolder_fatal_short_circuit envRootFail preD outD fs0 ("x")
      [{ Key := keyA, Size := 10 }]).2 rfl (by decide) rfl⟩

/-- C7: an empty listing returns the zero-valued result with the duration
set and a nil error, and leaves the filesystem (in particular the
destination root) untouched. -/
theorem downloadFolder_empty_listing (env : Env) (pre dir : GoStr) (fs : FS)
    (h : env.listResult = Except.ok []) :
    DownloadFolder env pre dir fs =
      (RunOutcome.ret (some
        { TotalFiles := 0, SuccessfulFiles := 0, FailedFiles := 0, TotalBytes := 0
          Duration := env.elapsed, Errors := [] }) none, fs) := by
  simp [DownloadFolder, h, emptyResult]

theorem downloadFolder_empty_listing_witness :
    DownloadFolder envEmpty preD outD fs0 =
      (RunOutcome.ret (some
        { TotalFiles := 0, SuccessfulFiles := 0, FailedFiles := 0, TotalBytes := 0
          Duration := 3, Errors := [] }) none, fs0) :=
  downloadFolder_empty_listing envEmpty preD outD fs0 rfl

/-! ## Pointwise characterization of the filesystem effect -/

theorem addDirs_file (p : List GoStr) (fs : FS) : (addDirs p fs).file = fs.file := rfl

theorem addDirs_isDir (p : List GoStr) (fs : FS) (q : List GoStr) :
    (addDirs p fs).isDir q = (fs.isDir q || q.isPrefixOf p) := rfl

theorem setFile_file (p : List GoStr) (v : List Nat) (fs : FS) (q : List GoStr) :
    (setFile p v fs).file q = if q = p then some v else fs.file q := rfl

theorem setFile_isDir (p : List GoStr) (v : List Nat) (fs : FS) :
    (setFile p v fs).isDir = fs.isDir := rfl

theorem downloadObject_empty (env : Env) (obj : Object) (pre dir : GoStr) (fs : FS)
    (hk : obj.Key.getLast? = none) : downloadObject env obj pre dir fs = none := by
  simp [downloadObject, hk]

theorem downloadObject_some (env : Env) (obj : Object) (pre dir : GoStr) (fs : FS)
    (c : Char) (hk : obj.Key.getLast? = some c) :
    downloadObject env obj pre dir fs =
      some (objRes env obj pre dir, objApply env obj pre dir fs) := by
  unfold downloadObject objRes objApply mkdirAll
  rw [hk]
  dsimp only
  by_cases hc : c = '/' <;>
    cases hm1 : env.mkdirOk (joinPath dir (relativePath obj.Key pre)) <;>
    cases hm2 : env.mkdirOk (joinPath dir (relativePath obj.Key pre)).dropLast <;>
    cases hf : env.fetch obj.Key <;>
    cases hcr : env.createOk (joinPath dir (relativePath obj.Key pre)) <;>
    simp [hc, hm1, hm2, hf, hcr]

theorem downloadObject_ne_none (env : Env) (obj : Object) (pre dir : GoStr) (fs : FS)
    (c : Char) (hk : obj.Key.getLast? = some c) :
    downloadObject env obj pre dir fs ≠ none := by
  rw [downloadObject_some env obj pre dir fs c hk]
  simp

theorem objApply_file (env : Env) (obj : Object) (pre dir : GoStr) (fs : FS)
    (p : List GoStr) :
    (objApply env obj pre dir fs).file p =
      match objFileWrite env obj pre dir with
      | some qv => if p = qv.1 then some qv.2 else fs.file p
      | none => fs.file p := by
  unfold objApply objFileWrite
  cases hk : obj.Key.getLast? with
  | none => rfl
  | some c =>
    dsimp only
    by_cases hc : c = '/' <;>
      cases hm1 : env.mkdirOk (joinPath dir (relativePath obj.Key pre)) <;>
      cases hm2 : env.mkdirOk (joinPath dir (relativePath obj.Key pre)).dropLast <;>
      cases hf : env.fetch obj.Key <;>
      cases hcr : env.createOk (joinPath dir (relativePath obj.Key pre)) <;>
      simp [hc, hm1, hm2, hf, hcr, setFile, addDirs]

theorem objApply_isDir (env : Env) (obj : Object) (pre dir : GoStr) (fs : FS)
    (q : List GoStr) :
    (objApply env obj pre dir fs).isDir q =
      (fs.isDir q || objDirAdd env obj pre dir q) := by
  unfold objApply objDirAdd
  cases hk : obj.Key.getLast? with
  | none => simp
  | some c =>
    dsimp only
    by_cases hc : c = '/' <;>
      cases hm1 : env.mkdirOk (joinPath dir (relativePath obj.Key pre)) <;>
      cases hm2 : env.mkdirOk (joinPath dir (relativePath obj.Key pre)).dropLast <;>
      cases hf : env.fetch obj.Key <;>
      cases hcr : env.createOk (joinPath dir (relativePath obj.Key pre)) <;>
      simp [hc, hm1, hm2, hf, hcr, setFile, addDirs]

theorem worker_fs_cons (env : Env) (pre dir : GoStr) (obj : Object)
    (rest : List Object) (fs : FS) :
    (downloadWorker env pre dir (obj :: rest) fs).2 =
      match downloadObject env obj pre dir fs with
      | none => fs
      | some (_, fs1) => (downloadWorker env pre dir rest fs1).2 := by
  dsimp only [downloadWorker]
  cases hd : downloadObject env obj pre dir fs with
  | none => rfl
  | some rp =>
    rcases rp with ⟨res, fs1⟩
    dsimp only
    rcases hrec : downloadWorker env pre dir rest fs1 with ⟨o1, fs2⟩
    cases o1 <;> rfl

theorem worker_file_pointwise (env : Env) (pre dir : GoStr) :
    ∀ (objs : List Object) (fs : FS) (p : List GoStr),
      ((downloadWorker env pre dir objs fs).2).file p =
        match fileAfter env pre dir objs p with
        | some v => some v
        | none => fs.file p := by
  intro objs
  induction objs with
  | nil => intro fs p; rfl
  | cons obj rest ih =>
    intro fs p
    rw [worker_fs_cons]
    cases hk : obj.Key.getLast? with
    | none =>
      rw [downloadObject_empty env obj pre dir fs hk]
      simp only [fileAfter, hk]
    | some c =>
      rw [downloadObject_some env obj pre dir fs c hk]
      dsimp only
      rw [ih (objApply env obj pre dir fs) p]
      simp only [fileAfter, hk]
      cases hrest : fileAfter env pre dir rest p with
      | some v => rfl
      | none =>
        dsimp only
        rw [objApply_file]
        cases hofw : objFileWrite env obj pre dir with
        | none => rfl
        | some qv =>
          dsimp only
          by_cases hp : p = qv.1
          · simp [hp]
          · simp [hp]

theorem worker_isDir_pointwise (env : Env) (pre dir : GoStr) :
    ∀ (objs : List Object) (fs : FS) (q : List GoStr),
      ((downloadWorker env pre dir objs fs).2).isDir q =
        (fs.isDir q || dirsAfter env pre dir objs q) := by
  intro objs
  induction objs with
  | nil => intro fs q; simp [downloadWorker, dirsAfter]
  | cons obj rest ih =>
    intro fs q
    rw [worker_fs_cons]
    cases hk : obj.Key.getLast? with
    | none =>
      rw [downloadObject_empty env obj pre dir fs hk]
      simp only [dirsAfter, hk, Bool.or_false]
    | some c =>
      rw [downloadObject_some env obj pre dir fs c hk]
      dsimp only
      rw [ih (objApply env obj pre dir fs) q, objApply_isDir]
      simp only [dirsAfter, hk]
      rw [Bool.or_assoc]

theorem run_fs_shape (env : Env) (pre dir : GoStr) (fs : FS) :
    (DownloadFolder env pre dir fs).2 =
      match env.listResult with
      | Except.error _ => fs
      | Except.ok objs =>
        match objs with
        | [] => fs
        | o :: rest =>
          if env.mkdirOk (cleanSegs (splitSlash dir)) then
            (downloadWorker env pre dir (o :: rest)
              (addDirs (cleanSegs (splitSlash dir)) fs)).2
          else fs := by
  unfold DownloadFolder
  cases hl : env.listResult with
  | error e => rfl
  | ok objs =>
    cases objs with
    | nil => rfl
    | cons o rest =>
      dsimp only
      by_cases hm : env.mkdirOk (cleanSegs (splitSlash dir)) = true
      · rw [if_pos hm, if_pos hm]
        rcases hw : downloadWorker env pre dir (o :: rest)
            (addDirs (cleanSegs (splitSlash dir)) fs) with ⟨o1, fs2⟩
        cases o1 <;> rfl
      · rw [if_neg hm, if_neg hm]

theorem run_file_pointwise (env : Env) (pre dir : GoStr) (fs : FS) (p : List GoStr) :
    ((DownloadFolder env pre dir fs).2).file p =
      match runFileAfter env pre dir p with
      | some v => some v
      | none => fs.file p := by
  rw [run_fs_shape]
  unfold runFileAfter
  cases hl : env.listResult with
  | error e => rfl
  | ok objs =>
    cases objs with
    | nil => rfl
    | cons o rest =>
      dsimp only
      by_cases hm : env.mkdirOk (cleanSegs (splitSlash dir)) = true
      · rw [if_pos hm, if_pos hm, worker_file_pointwise]
        rfl
      · rw [if_neg hm, if_neg hm]

theorem run_isDir_pointwise (env : Env) (pre dir : GoStr) (fs : FS) (q : List GoStr) :
    ((DownloadFolder env pre dir fs).2).isDir q =
      (fs.isDir q || runDirsAfter env pre dir q) := by
  rw [run_fs_shape]
  unfold runDirsAfter
  cases hl : env.listResult with
  | error e => simp
  | ok objs =>
    cases objs with
    | nil => simp
    | cons o rest =>
      dsimp only
      by_cases hm : env.mkdirOk (cleanSegs (splitSlash dir)) = true
      · rw [if_pos hm, if_pos hm, worker_isDir_pointwise, addDirs_isDir, Bool.or_assoc]
      · rw [if_neg hm, if_neg hm]
        simp

/-- C1 counterexample: a run whose listing and destination-root creation
succeed and which records one per-object error returns the populated
result together with a NIL error — not the non-nil `PartialFailureError`
the claim requires. -/
theorem downloadFolder_partial_failure_nil_error_counterexample :
    (DownloadFolder envB preD outD fs0).1 = RunOutcome.ret (some resB) none ∧
      resB.Errors ≠ [] := by decide

/-- C1 (amended): whenever `DownloadFolder` returns a result at all, the
accompanying error is nil; per-object failures are reported only through
`result.Errors` (whose length equals `FailedFiles`), never as a returned
summary error. -/
theorem downloadFolder_returns_nil_error (env : Env) (pre dir : GoStr) (fs : FS)
    (r : DownloadResult) (e : Option String)
    (h : (DownloadFolder env pre dir fs).1 = RunOutcome.ret (some r) e) :
    e = none ∧ r.Errors.length = r.FailedFiles := by
  unfold DownloadFolder at h
  cases hl : env.listResult with
  | error e' => rw [hl] at h; simp at h
  | ok objs =>
    rw [hl] at h
    cases objs with
    | nil =>
      dsimp only at h
      simp only [RunOutcome.ret.injEq, Option.some.injEq] at h
      obtain ⟨hr, he⟩ := h
      subst hr
      exact ⟨he.symm, by simp [emptyResult]⟩
    | cons o rest =>
      dsimp only at h
      by_cases hm : env.mkdirOk (cleanSegs (splitSlash dir)) = true
      · rw [if_pos hm] at h
        rcases hw : downloadWorker env pre dir (o :: rest)
            (addDirs (cleanSegs (splitSlash dir)) fs) with ⟨o1, fs2⟩
        rw [hw] at h
        cases o1 with
        | none => simp at h
        | some evs =>
          dsimp only at h
          simp only [RunOutcome.ret.injEq, Option.some.injEq] at h
          obtain ⟨hr, he⟩ := h
          subst hr
          refine ⟨he.symm, ?_⟩
          simp [aggregate, agg_foldl_Errors_length, agg_foldl_FailedFiles, emptyResult]
      · rw [if_neg hm] at h
        simp at h

theorem downloadFolder_returns_nil_error_witness :
    (none : Option String) = none ∧ resB.Errors.length = resB.FailedFiles :=
  downloadFolder_returns_nil_error envB preD outD fs0 resB none (by decide)

/-- C2 counterexample: in scenario B the event of the failed object is not
completed, the sum of declared sizes over completed events is 10, yet the
returned `TotalBytes` is 30 — the failed object's size is counted. -/
theorem downloadFolder_totalBytes_counterexample :
    runEvents envB preD outD fs0 = some evsB ∧
      (DownloadFolder envB preD outD fs0).1 = RunOutcome.ret (some resB) none ∧
      ((evsB.filter (fun v => v.Completed)).map (fun v => v.TotalBytes)).sum = 10 ∧
      resB.TotalBytes ≠ 10 := by decide

/-- C2 (amended): whenever `DownloadFolder` returns a result for a listing
of objects, `TotalBytes` is the sum of the declared sizes of ALL listed
objects — failed objects' sizes included, since every event carries
`TotalBytes = obj.Size` and the aggregator adds it unconditionally. -/
theorem downloadFolder_totalBytes_sums_all (env : Env) (pre dir : GoStr) (fs : FS)
    (objs : List Object) (r : DownloadResult) (e : Option String)
    (hl : env.listResult = Except.ok objs)
    (h : (DownloadFolder env pre dir fs).1 = RunOutcome.ret (some r) e) :
    r.TotalBytes = (objs.map (fun o => o.Size)).sum := by
  unfold DownloadFolder at h
  rw [hl] at h
  cases objs with
  | nil =>
    dsimp only at h
    simp only [RunOutcome.ret.injEq, Option.some.injEq] at h
    obtain ⟨hr, he⟩ := h
    subst hr
    simp [emptyResult]
  | cons o rest =>
    dsimp only at h
    by_cases hm : env.mkdirOk (cleanSegs (splitSlash dir)) = true
    · rw [if_pos hm] at h
      rcases hw : downloadWorker env pre dir (o :: rest)
          (addDirs (cleanSegs (splitSlash dir)) fs) with ⟨o1, fs2⟩
      rw [hw] at h
      cases o1 with
      | none => simp at h
      | some evs =>
        dsimp only at h
        simp only [RunOutcome.ret.injEq, Option.some.injEq] at h
        obtain ⟨hr, he⟩ := h
        subst hr
        have hsz := worker_events_sizes env pre dir (o :: rest)
          (addDirs (cleanSegs (splitSlash dir)) fs) evs (by rw [hw])
        simp [aggregate, agg_foldl_TotalBytes, emptyResult, hsz]
    · rw [if_neg hm] at h
      simp at h

theorem downloadFolder_totalBytes_sums_all_witness :
    resB.TotalBytes =
      (([{ Key := keyA, Size := 10 }, { Key := keyB, Size := 20 }] : List Object).map
        (fun o => o.Size)).sum :=
  downloadFolder_totalBytes_sums_all envB preD outD fs0 _ resB none rfl (by decide)

/-- C4: for a listing of N objects, a returned result has
`TotalFiles = N` and `SuccessfulFiles + FailedFiles = N`, with exactly one
event per object; `FailedFiles` counts the events whose error is set and
`SuccessfulFiles` the rest. -/
theorem downloadFolder_count_invariants (env : Env) (pre dir : GoStr) (fs : FS)
    (objs : List Object) (r : DownloadResult) (e : Option String)
    (hl : env.listResult = Except.ok objs)
    (h : (DownloadFolder env pre dir fs).1 = RunOutcome.ret (some r) e) :
    r.TotalFiles = objs.length ∧
    r.SuccessfulFiles + r.FailedFiles = objs.length ∧
    ∃ evs, runEvents env pre dir fs = some evs ∧ evs.length = objs.length ∧
      r.FailedFiles = (evs.filter (fun v => v.Error.isSome)).length ∧
      r.SuccessfulFiles = (evs.filter (fun v => v.Error.isNone)).length := by
  unfold DownloadFolder at h
  rw [hl] at h
  cases objs with
  | nil =>
    dsimp only at h
    simp only [RunOutcome.ret.injEq, Option.some.injEq] at h
    obtain ⟨hr, he⟩ := h
    subst hr
    refine ⟨by simp [emptyResult], by simp [emptyResult], [], ?_, by simp, by simp [emptyResult], by simp [emptyResult]⟩
    simp [runEvents, hl]
  | cons o rest =>
    dsimp only at h
    by_cases hm : env.mkdirOk (cleanSegs (splitSlash dir)) = true
    · rw [if_pos hm] at h
      rcases hw : downloadWorker env pre dir (o :: rest)
          (addDirs (cleanSegs (splitSlash dir)) fs) with ⟨o1, fs2⟩
      rw [hw] at h
      cases o1 with
      | none => simp at h
      | some evs =>
        dsimp only at h
        simp only [RunOutcome.ret.injEq, Option.some.injEq] at h
        obtain ⟨hr, he⟩ := h
        subst hr
        have hev1 : (downloadWorker env pre dir (o :: rest)
            (addDirs (cleanSegs (splitSlash dir)) fs)).1 = some evs := by rw [hw]
        have hlen := worker_events_length env pre dir (o :: rest) _ evs hev1
        have hsplit := filter_isNone_isSome_length evs
        refine ⟨?_, ?_, evs, ?_, hlen, ?_, ?_⟩
        · simp [aggregate, agg_foldl_TotalFiles, emptyResult, hlen]
        · simp only [aggregate, agg_foldl_FailedFiles, agg_foldl_SuccessfulFiles, emptyResult]
          omega
        · simp only [runEvents, hl]
          rw [if_pos hm, hw]
        · simp [aggregate, agg_foldl_FailedFiles, emptyResult]
        · simp [aggregate, agg_foldl_SuccessfulFiles, emptyResult]
    · rw [if_neg hm] at h
      simp at h

theorem downloadFolder_count_invariants_witness :
    resB.TotalFiles = 2 ∧ resB.SuccessfulFiles + resB.FailedFiles = 2 ∧
      resB.FailedFiles = (evsB.filter (fun v => v.Error.isSome)).length ∧
      resB.SuccessfulFiles = (evsB.filter (fun v => v.Error.isNone)).length := by
  have h := downloadFolder_count_invariants envB preD outD fs0
    [{ Key := keyA, Size := 10 }, { Key := keyB, Size := 20 }] resB none rfl (by decide)
  obtain ⟨h1, h2, evs, hevs, hlen, hfail, hsucc⟩ := h
  have : evs = evsB := by
    have hB : runEvents envB preD outD fs0 = some evsB := by decide
    rw [hB] at hevs
    exact (Option.some.injEq _ _ ▸ hevs).symm
  subst this
  exact ⟨h1, h2, hfail, hsucc⟩

/-- C8: running `DownloadFolder` twice with the same prefix, destination
and unchanged environment is idempotent on disk: the second run leaves
every file and directory exactly as the first run did, because every
write is a full overwrite (`os.Create` truncates) keyed by path. -/
theorem downloadFolder_idempotent (env : Env) (pre dir : GoStr) (fs : FS) :
    (DownloadFolder env pre dir ((DownloadFolder env pre dir fs).2)).2 =
      (DownloadFolder env pre dir fs).2 := by
  apply FS.ext
  · funext q
    rw [run_isDir_pointwise, run_isDir_pointwise, Bool.or_assoc, Bool.or_self]
  · funext p
    rw [run_file_pointwise, run_file_pointwise]
    cases h : runFileAfter env pre dir p with
    | some v => rfl
    | none => rfl

/-- C3 counterexample: a directory-marker object declared with size 7:
the directory is created, no file appears at its path, but the emitted
event carries `BytesDownloaded = TotalBytes = 7` — not the 0 the claim
requires — and the object contributes 7, not 0, to `result.TotalBytes`. -/
theorem dirMarker_event_counterexample :
    runEvents envDir preD outD fs0 =
      some [{ Key := keyDirMarker, BytesDownloaded := 7, TotalBytes := 7
              Error := none, Completed := true }] ∧
    (DownloadFolder envDir preD outD fs0).1 = RunOutcome.ret (some resDir) none ∧
    resDir.TotalBytes = 7 ∧
    ((DownloadFolder envDir preD outD fs0).2).file
        (joinPath outD (relativePath keyDirMarker preD)) = none ∧
    ((DownloadFolder envDir preD outD fs0).2).isDir
        (joinPath outD (relativePath keyDirMarker preD)) = true := by
  refine ⟨by decide, by decide, by decide, by decide, by decide⟩

/-- C3 (amended): for a directory-marker object whose directory creation
succeeds, the worker creates the directory at the mapped path, writes no
file anywhere, and emits one completed, error-free event whose
`BytesDownloaded` and `TotalBytes` both equal the object's declared size
(so the object contributes `obj.Size`, not 0, to `TotalBytes`). -/
theorem dirMarker_creates_directory_only (env : Env) (obj : Object) (pre dir : GoStr)
    (fs : FS) (hk : obj.Key.getLast? = some '/')
    (hm : env.mkdirOk (joinPath dir (relativePath obj.Key pre)) = true) :
    downloadWorker env pre dir [obj] fs =
      (some [{ Key := obj.Key, BytesDownloaded := obj.Size, TotalBytes := obj.Size
               Error := none, Completed := true }],
       addDirs (joinPath dir (relativePath obj.Key pre)) fs) ∧
    (addDirs (joinPath dir (relativePath obj.Key pre)) fs).file = fs.file ∧
    (addDirs (joinPath dir (relativePath obj.Key pre)) fs).isDir
      (joinPath dir (relativePath obj.Key pre)) = true := by
  refine ⟨?_, rfl, ?_⟩
  · dsimp only [downloadWorker]
    rw [downloadObject_some env obj pre dir fs '/' hk]
    have hres : objRes env obj pre dir = none := by
      unfold objRes
      rw [hk]
      simp [hm]
    have happ : objApply env obj pre dir fs =
        addDirs (joinPath dir (relativePath obj.Key pre)) fs := by
      unfold objApply
      rw [hk]
      simp [hm]
    rw [hres, happ]
    rfl
  · rw [addDirs_isDir]
    simp [List.isPrefixOf_iff_prefix]

theorem dirMarker_creates_directory_only_witness :
    downloadWorker envDir preD outD [{ Key := keyDirMarker, Size := 7 }] fs0 =
      (some [{ Key := keyDirMarker, BytesDownloaded := 7, TotalBytes := 7
               Error := none, Completed := true }],
       addDirs (joinPath outD (relativePath keyDirMarker preD)) fs0) ∧
    (addDirs (joinPath outD (relativePath keyDirMarker preD)) fs0).file = fs0.file ∧
    (addDirs (joinPath outD (relativePath keyDirMarker preD)) fs0).isDir
      (joinPath outD (relativePath keyDirMarker preD)) = true :=
  dirMarker_creates_directory_only envDir { Key := keyDirMarker, Size := 7 } preD outD fs0
    (by decide) (by decide)

/-- C5 counterexample: at key `"/a"` and empty prefix the claimed mapper
(strip whenever `len(key) > len(prefix)`, then one slash) yields `"a"`,
but the code's mapper — whose stripping branch is additionally guarded by
`prefix != ""` — returns `"/a"` unchanged. -/
theorem relativePath_claim_counterexample :
    relativePath ("/a").data [] = ("/a").data ∧
    claimRelativePath ("/a").data [] = ("a").data ∧
    relativePath ("/a").data [] ≠ claimRelativePath ("/a").data [] := by decide

/-- C5 (amended): the mapper strips the first `len(prefix)` characters and
then at most one leading slash only when the prefix is non-empty AND
strictly shorter than the key; when the prefix is empty or
`len(key) <= len(prefix)` the key is returned unchanged.  The spec's
concrete example holds. -/
theorem relativePath_spec (key pre : GoStr) :
    (pre ≠ [] → pre.length < key.length →
      relativePath key pre = stripOneSlash (key.drop pre.length)) ∧
    (pre = [] ∨ key.length ≤ pre.length → relativePath key pre = key) ∧
    relativePath ("photos/2020/a.jpg").data (("photos/").data) = ("2020/a.jpg").data := by
  refine ⟨?_, ?_, by decide⟩
  · intro h1 h2
    unfold relativePath
    rw [if_pos ⟨h1, h2⟩]
    cases hd : key.drop pre.length with
    | nil => rfl
    | cons c rest =>
      by_cases hc : c = '/'
      · subst hc
        rfl
      · unfold stripOneSlash
        split
        · next rest2 heq =>
          exact absurd (List.cons.inj heq).1 hc
        · split
          · next rest2 heq =>
            exact absurd (List.cons.inj heq).1 hc
          · rfl
  · intro h
    unfold relativePath
    rw [if_neg]
    intro hcon
    rcases h with h | h
    · exact hcon.1 h
    · omega

theorem relativePath_spec_witness :
    relativePath ("photos/2020/a.jpg").data (("photos/").data) =
      stripOneSlash ((("photos/2020/a.jpg").data).drop ((("photos/").data).length)) ∧
    relativePath ("/a").data [] = ("/a").data :=
  ⟨(relativePath_spec ("photos/2020/a.jpg").data (("photos/").data)).1
      (by decide) (by decide),
   (relativePath_spec ("/a").data []).2.1 (Or.inl rfl)⟩

/-- C9: `downloadObject` tests the trailing slash with
`obj.Key[len(obj.Key)-1]` and no bound check: for every non-empty key the
index is in bounds and the call returns normally, while for the empty key
the index is `-1`, out of bounds, and the call panics. -/
theorem downloadObject_empty_key_panics (env : Env) (obj : Object) (pre dir : GoStr)
    (fs : FS) :
    (obj.Key ≠ [] → idxInBounds obj.Key ∧ downloadObject env obj pre dir fs ≠ none) ∧
    (obj.Key = [] → ¬ idxInBounds obj.Key ∧ downloadObject env obj pre dir fs = none) := by
  constructor
  · intro hne
    have hlen : 0 < obj.Key.length := List.length_pos.mpr hne
    constructor
    · unfold idxInBounds lastIndex
      omega
    · obtain ⟨c, hc⟩ : ∃ c, obj.Key.getLast? = some c := by
        cases hg : obj.Key.getLast? with
        | none => exact absurd (List.getLast?_eq_none_iff.mp hg) hne
        | some c => exact ⟨c, rfl⟩
      exact downloadObject_ne_none env obj pre dir fs c hc
  · intro he
    refine ⟨?_, ?_⟩
    · rw [he]
      unfold idxInBounds lastIndex
      rw [List.length_nil]
      omega
    · exact downloadObject_empty env obj pre dir fs (by rw [he]; rfl)

theorem downloadObject_empty_key_panics_witness :
    (idxInBounds keyA ∧
      downloadObject envB { Key := keyA, Size := 10 } preD outD fs0 ≠ none) ∧
    (¬ idxInBounds [] ∧
      downloadObject envB { Key := [], Size := 0 } preD outD fs0 = none) :=
  ⟨(downloadObject_empty_key_panics envB { Key := keyA, Size := 10 } preD outD fs0).1
      (by decide),
   (downloadObject_empty_key_panics envB { Key := [], Size := 0 } preD outD fs0).2 rfl⟩

/-- C10: the mapped local path is not confined to the destination root:
for the key `"p/../../evil/x.txt"` under prefix `"p/"` the joined path is
`../evil/x.txt`, outside the destination root `out`, and with every
operation succeeding `downloadObject` creates the outside parent
directory and writes the file there; a full `DownloadFolder` run on that
listing leaves the file at the outside path. -/
theorem path_escapes_destination_root :
    (cleanSegs (splitSlash outD)).isPrefixOf escPath = false ∧
    ((downloadObject envEsc escObj preP outD fs0).map
      (fun r => (r.1, r.2.file escPath, r.2.isDir escPath.dropLast))) =
      some (none, some [104, 105], true) ∧
    ((DownloadFolder envEsc preP outD fs0).2).file escPath = some [104, 105] := by
  refine ⟨by decide, by decide, by decide⟩
